import Mathlib

/-!
Verification of the gpt-researcher HTTP client (`tutorial_poc.py`,
`backend/run_server.py`) and of the server core specified in `spec.md`.

The first part is a shallow embedding of the client
`GPTResearcherClient`: requests are explicit values, the network is an
abstract function from requests to responses, and every client method is
the composition of a request builder with its literal response handling.

The second part models the server core (Job Orchestrator, Report Store,
Chat Session Store) from the specification, since the server code itself
is not part of the repository: a system state, one executable operation
per spec operation, a step relation, and the reachability invariants the
specification asserts.
-/

namespace GptrClient

/-- A minimal JSON value, the shape of request and response bodies. -/
inductive Json where
  | null
  | bool (b : Bool)
  | str (s : String)
  | num (n : Int)
  | arr (elems : List Json)
  | obj (fields : List (String × Json))

/-- Keys of a JSON object; other values have none. -/
def objKeys : Json → List String
  | Json.obj fields => fields.map Prod.fst
  | _ => []

/-- HTTP method of a request. -/
inductive Method where
  | GET
  | POST
  | PUT
  | DELETE
deriving DecidableEq

/-- An outgoing HTTP request as the client assembles it: URL (with any
query string the client concatenates by hand), query parameters passed
via the `params` keyword, the JSON body, and multipart file entries as
(field name, transmitted filename) pairs. -/
structure HttpRequest where
  method : Method
  url : String
  params : List (String × String)
  jsonBody : Option Json
  files : List (String × String)

/-- An incoming HTTP response: status code, headers, raw body bytes and
the value `response.json()` parses from the body. -/
structure HttpResponse where
  status : Nat
  headers : List (String × String)
  content : List Nat
  jsonBody : Json

/-- The network seen by the client: each request gets one response. -/
def Net : Type := HttpRequest → HttpResponse

/-- Server startup default host (`run_server.py`, argparse `--host`). -/
def server_default_host : String := "0.0.0.0"

/-- Server startup default port (`run_server.py`, argparse `--port`). -/
def server_default_port : Nat := 8000

/-- Default `base_url` of `GPTResearcherClient.__init__`. -/
def client_default_base_url : String := "http://localhost:11250"

/-- Base URL chosen by `main()`:
`os.getenv("GPTR_API_URL", "http://localhost:11250")`. -/
def main_base_url (env : String → Option String) : String :=
  (env "GPTR_API_URL").getD "http://localhost:11250"

/-- `os.path.basename` on POSIX: the characters after the last slash.
The left fold restarts its accumulator at every `/`. -/
def basenameList (l : List Char) : List Char :=
  l.foldl (fun acc c => if c = '/' then [] else acc ++ [c]) []

/-- `os.path.basename` lifted to `String`. -/
def basename (p : String) : String :=
  String.mk (basenameList p.data)

/-- Request of `get_reports`: GET `{base}/api/reports`, appending
`?report_ids=...` when a filter is given. -/
def get_reports_request (base : String) (report_ids : Option String) : HttpRequest :=
  { method := Method.GET
    url := match report_ids with
      | some ids => base ++ "/api/reports" ++ "?report_ids=" ++ ids
      | none => base ++ "/api/reports"
    params := [], jsonBody := none, files := [] }

/-- Request of `get_report_by_id`: GET `{base}/api/reports/{id}`. -/
def get_report_by_id_request (base research_id : String) : HttpRequest :=
  { method := Method.GET, url := base ++ "/api/reports/" ++ research_id
    params := [], jsonBody := none, files := [] }

/-- The JSON payload `create_report` posts: exactly the eight keys of the
`payload` dict, in source order; a `headers` of `None` becomes JSON null. -/
def create_report_payload (task report_type report_source tone : String)
    (headers : Option Json) (repo_name branch_name : String)
    (generate_in_background : Bool) : Json :=
  Json.obj
    [("task", Json.str task),
     ("report_type", Json.str report_type),
     ("report_source", Json.str report_source),
     ("tone", Json.str tone),
     ("headers", headers.getD Json.null),
     ("repo_name", Json.str repo_name),
     ("branch_name", Json.str branch_name),
     ("generate_in_background", Json.bool generate_in_background)]

/-- Request of `create_report`: POST `{base}/report/` with the payload. -/
def create_report_request (base task report_type report_source tone : String)
    (headers : Option Json) (repo_name branch_name : String)
    (generate_in_background : Bool) : HttpRequest :=
  { method := Method.POST, url := base ++ "/report/"
    params := []
    jsonBody := some (create_report_payload task report_type report_source tone
      headers repo_name branch_name generate_in_background)
    files := [] }

/-- Request of `update_report`: PUT `{base}/api/reports/{id}` with `data`. -/
def update_report_request (base research_id : String) (data : Json) : HttpRequest :=
  { method := Method.PUT, url := base ++ "/api/reports/" ++ research_id
    params := [], jsonBody := some data, files := [] }

/-- Request of `delete_report`: DELETE `{base}/api/reports/{id}`. -/
def delete_report_request (base research_id : String) : HttpRequest :=
  { method := Method.DELETE, url := base ++ "/api/reports/" ++ research_id
    params := [], jsonBody := none, files := [] }

/-- Request of `get_report_chat`: GET `{base}/api/reports/{id}/chat`. -/
def get_report_chat_request (base research_id : String) : HttpRequest :=
  { method := Method.GET, url := base ++ "/api/reports/" ++ research_id ++ "/chat"
    params := [], jsonBody := none, files := [] }

/-- Request of `add_chat_message`: POST `{base}/api/reports/{id}/chat`. -/
def add_chat_message_request (base research_id : String) (message : Json) : HttpRequest :=
  { method := Method.POST, url := base ++ "/api/reports/" ++ research_id ++ "/chat"
    params := [], jsonBody := some message, files := [] }

/-- Request of `chat`: POST `{base}/api/chat` with report and messages. -/
def chat_request (base report : String) (messages : List Json) : HttpRequest :=
  { method := Method.POST, url := base ++ "/api/chat"
    params := []
    jsonBody := some (Json.obj [("report", Json.str report), ("messages", Json.arr messages)])
    files := [] }

/-- Request of `list_files`: GET `{base}/files/` with a `path` parameter
defaulting to `./my-docs`. -/
def list_files_request (base : String) (doc_path : Option String) : HttpRequest :=
  { method := Method.GET, url := base ++ "/files/"
    params := [("path", doc_path.getD "./my-docs")], jsonBody := none, files := [] }

/-- Request of `upload_file`: POST `{base}/upload/` with a `path`
parameter defaulting to `./my-docs` and a multipart `file` entry whose
transmitted filename is `os.path.basename(file_path)`. -/
def upload_file_request (base file_path : String) (doc_path : Option String) : HttpRequest :=
  { method := Method.POST, url := base ++ "/upload/"
    params := [("path", doc_path.getD "./my-docs")]
    jsonBody := none
    files := [("file", basename file_path)] }

/-- Request of `delete_file`: DELETE `{base}/files/{filename}` with a
`path` parameter defaulting to `./my-docs`. -/
def delete_file_request (base filename : String) (doc_path : Option String) : HttpRequest :=
  { method := Method.DELETE, url := base ++ "/files/" ++ filename
    params := [("path", doc_path.getD "./my-docs")], jsonBody := none, files := [] }

/-- Request of `get_report_docx`: GET `{base}/report/{id}`. -/
def get_report_docx_request (base research_id : String) : HttpRequest :=
  { method := Method.GET, url := base ++ "/report/" ++ research_id
    params := [], jsonBody := none, files := [] }

/-- `get_reports`: sends its request and returns `response.json()`. -/
def get_reports (net : Net) (base : String) (report_ids : Option String) : Json :=
  (net (get_reports_request base report_ids)).jsonBody

/-- `get_report_by_id`: sends its request and returns `response.json()`. -/
def get_report_by_id (net : Net) (base research_id : String) : Json :=
  (net (get_report_by_id_request base research_id)).jsonBody

/-- `create_report`: sends its request and returns `response.json()`. -/
def create_report (net : Net) (base task report_type report_source tone : String)
    (headers : Option Json) (repo_name branch_name : String)
    (generate_in_background : Bool) : Json :=
  (net (create_report_request base task report_type report_source tone
    headers repo_name branch_name generate_in_background)).jsonBody

/-- `update_report`: sends its request and returns `response.json()`. -/
def update_report (net : Net) (base research_id : String) (data : Json) : Json :=
  (net (update_report_request base research_id data)).jsonBody

/-- `delete_report`: sends its request and returns `response.json()`. -/
def delete_report (net : Net) (base research_id : String) : Json :=
  (net (delete_report_request base research_id)).jsonBody

/-- `get_report_chat`: sends its request and returns `response.json()`. -/
def get_report_chat (net : Net) (base research_id : String) : Json :=
  (net (get_report_chat_request base research_id)).jsonBody

/-- `add_chat_message`: sends its request and returns `response.json()`. -/
def add_chat_message (net : Net) (base research_id : String) (message : Json) : Json :=
  (net (add_chat_message_request base research_id message)).jsonBody

/-- `chat`: sends its request and returns `response.json()`. -/
def chat (net : Net) (base report : String) (messages : List Json) : Json :=
  (net (chat_request base report messages)).jsonBody

/-- `list_files`: sends its request and returns `response.json()`. -/
def list_files (net : Net) (base : String) (doc_path : Option String) : Json :=
  (net (list_files_request base doc_path)).jsonBody

/-- `upload_file`: sends its request and returns `response.json()`. -/
def upload_file (net : Net) (base file_path : String) (doc_path : Option String) : Json :=
  (net (upload_file_request base file_path doc_path)).jsonBody

/-- `delete_file`: sends its request and returns `response.json()`. -/
def delete_file (net : Net) (base filename : String) (doc_path : Option String) : Json :=
  (net (delete_file_request base filename doc_path)).jsonBody

/-- `get_report_docx`: returns the body bytes on status 200, else `None`. -/
def get_report_docx (net : Net) (base research_id : String) : Option (List Nat) :=
  let resp := net (get_report_docx_request base research_id)
  if resp.status = 200 then some resp.content else none

end GptrClient

namespace GptrCore

/-- Modelled from the spec: the Report lifecycle status enumeration
(spec section 3, `status`). -/
inductive Status where
  | pending
  | running
  | completed
  | failed
deriving DecidableEq, Repr

/-- Modelled from the spec: a generation request (spec section 4.1,
`submit`): the free-text task, the enumerated configuration, and the
background flag. -/
structure Request where
  task : String
  report_type : String
  report_source : String
  tone : String
  generate_in_background : Bool
deriving DecidableEq

/-- Modelled from the spec: the merged ResearchJob/Report record
(spec section 3): identifier, original task, status, and the optional
result content and failure error. -/
structure Report where
  id : Nat
  task : String
  status : Status
  content : Option String
  error : Option String
deriving DecidableEq

/-- Modelled from the spec: the phase of the asynchronous generation
task handle the Orchestrator keeps per identifier (spec sections 4.1
and 9: a mapping from id to a task handle). -/
inductive TaskPhase where
  | notStarted
  | started
  | finished
deriving DecidableEq

/-- Modelled from the spec: one chat turn (spec section 3, ChatTurn). -/
structure ChatTurn where
  role : String
  content : String
  sequence : Nat
deriving DecidableEq

/-- Modelled from the spec: the error taxonomy of section 7 that the
modelled operations can return. -/
inductive Err where
  | InvalidRequest
  | NotFound
  | NotReady
  | Forbidden
deriving DecidableEq

/-- Modelled from the spec: the process-wide state of the core
(spec sections 2 and 9): the Report Store, the Orchestrator's task-handle
map, the Chat Session Store, and the fresh-identifier counter. -/
structure SysState where
  reports : List (Nat × Report)
  tasks : List (Nat × TaskPhase)
  chats : List (Nat × List ChatTurn)
  nextId : Nat
deriving DecidableEq

/-- Lookup in an association list keyed by identifier. -/
def lookup {A : Type} : List (Nat × A) → Nat → Option A
  | [], _ => none
  | (k, v) :: rest, id => if k = id then some v else lookup rest id

/-- Replace the value at a key, or add the entry when absent. -/
def upsert {A : Type} : List (Nat × A) → Nat → A → List (Nat × A)
  | [], id, v => [(id, v)]
  | (k, v) :: rest, id, v' =>
      if k = id then (k, v') :: rest else (k, v) :: upsert rest id v'

/-- Remove every entry at a key. -/
def removeKey {A : Type} : List (Nat × A) → Nat → List (Nat × A)
  | [], _ => []
  | (k, v) :: rest, id =>
      if k = id then removeKey rest id else (k, v) :: removeKey rest id

/-- Modelled from the spec: validation performed by `submit`
(spec section 4.1): the task is non-empty and `report_type`,
`report_source`, `tone` are within their enumerations (the spec names
`research_report`/`detailed_report`, `web`/`local`/`hybrid`, and
`objective`/`formal` as the example members). -/
def validRequest (req : Request) : Bool :=
  req.task != "" &&
  ["research_report", "detailed_report"].contains req.report_type &&
  ["web", "local", "hybrid"].contains req.report_source &&
  ["objective", "formal"].contains req.tone

/-- Modelled from the spec: `submit` (spec section 4.1): validates the
request, allocates the fresh identifier `nextId`, inserts a `pending`
Report, records a not-yet-started task handle bound to the identifier,
and returns the identifier. -/
def submit (st : SysState) (req : Request) : Except Err (SysState × Nat) :=
  if validRequest req then
    let id := st.nextId
    Except.ok
      ({ reports := (id, { id := id, task := req.task, status := Status.pending,
                           content := none, error := none }) :: st.reports
         tasks := (id, TaskPhase.notStarted) :: st.tasks
         chats := st.chats
         nextId := id + 1 }, id)
  else Except.error Err.InvalidRequest

/-- Modelled from the spec: the task bound to `id` starts
(spec section 4.1): the Report transitions to `running`; a write to a
deleted identifier is silently dropped (spec section 5). -/
def taskStart (st : SysState) (id : Nat) : SysState :=
  match lookup st.reports id with
  | some r =>
      { st with reports := upsert st.reports id { r with status := Status.running }
                tasks := upsert st.tasks id TaskPhase.started }
  | none => { st with tasks := upsert st.tasks id TaskPhase.started }

/-- Modelled from the spec: the task bound to `id` succeeds
(spec section 4.1): writes `content` and transitions to `completed`;
a write to a deleted identifier is silently dropped (spec section 5). -/
def taskComplete (st : SysState) (id : Nat) (text : String) : SysState :=
  match lookup st.reports id with
  | some r =>
      { st with reports := upsert st.reports id
                  { r with status := Status.completed, content := some text, error := none }
                tasks := upsert st.tasks id TaskPhase.finished }
  | none => { st with tasks := upsert st.tasks id TaskPhase.finished }

/-- Modelled from the spec: the task bound to `id` fails
(spec section 4.1): writes `error` and transitions to `failed`;
a write to a deleted identifier is silently dropped (spec section 5). -/
def taskFail (st : SysState) (id : Nat) (msg : String) : SysState :=
  match lookup st.reports id with
  | some r =>
      { st with reports := upsert st.reports id
                  { r with status := Status.failed, content := none, error := some msg }
                tasks := upsert st.tasks id TaskPhase.finished }
  | none => { st with tasks := upsert st.tasks id TaskPhase.finished }

/-- Modelled from the spec: `get_status` (spec section 4.1): fails with
`NotFound` when the identifier is unknown or deleted. -/
def get_status (st : SysState) (id : Nat) : Except Err Report :=
  match lookup st.reports id with
  | none => Except.error Err.NotFound
  | some r => Except.ok r

/-- Modelled from the spec: the partial fields of a Report Store
`update` (spec section 4.2). -/
structure UpdateFields where
  task : Option String
  content : Option String
  status : Option Status

/-- Modelled from the spec: Report Store `update` (spec section 4.2):
fails with `NotFound` on an unknown identifier; rejects any attempt to
set `status` from outside the Orchestrator task with `Forbidden`; writing
`content` is likewise `Forbidden` unless the report is `completed`, so
every update preserves the section 3 presence invariant. -/
def update_report (st : SysState) (id : Nat) (u : UpdateFields) : Except Err SysState :=
  match lookup st.reports id with
  | none => Except.error Err.NotFound
  | some r =>
      if u.status.isSome then Except.error Err.Forbidden
      else if u.content.isSome && r.status != Status.completed then Except.error Err.Forbidden
      else
        let r' : Report :=
          { r with task := u.task.getD r.task,
                   content := (match u.content with
                     | some c => some c
                     | none => r.content) }
        Except.ok { st with reports := upsert st.reports id r' }

/-- Modelled from the spec: Report Store `delete` (spec sections 4.2
and 5): fails with `NotFound` on an unknown or already-deleted
identifier; otherwise removes the report, cascades deletion of the chat
transcript, and detaches any task bound to the identifier (the task
handle survives, but its eventual write finds no report and is
dropped). -/
def delete_report (st : SysState) (id : Nat) : Except Err SysState :=
  match lookup st.reports id with
  | none => Except.error Err.NotFound
  | some _ =>
      Except.ok { st with reports := removeKey st.reports id
                          chats := removeKey st.chats id }

/-- Largest `sequence` in a transcript, 0 when empty. -/
def maxSeq (t : List ChatTurn) : Nat :=
  t.foldr (fun turn acc => max turn.sequence acc) 0

/-- Modelled from the spec: Chat Session Store `append`
(spec section 4.3): `NotFound` when the identifier has no stored report,
`NotReady` while the report is still `pending` or `running`, and
otherwise appends a turn with `sequence = max existing + 1`. -/
def chat_append (st : SysState) (id : Nat) (role content : String) :
    Except Err (SysState × ChatTurn) :=
  match lookup st.reports id with
  | none => Except.error Err.NotFound
  | some r =>
      match r.status with
      | Status.pending => Except.error Err.NotReady
      | Status.running => Except.error Err.NotReady
      | _ =>
          let t := (lookup st.chats id).getD []
          let turn : ChatTurn := { role := role, content := content,
                                   sequence := maxSeq t + 1 }
          Except.ok ({ st with chats := upsert st.chats id (t ++ [turn]) }, turn)

/-- Modelled from the spec: `get_transcript` (spec section 4.3). -/
def get_transcript (st : SysState) (id : Nat) : List ChatTurn :=
  (lookup st.chats id).getD []

/-- Modelled from the spec: one atomic step of the core: a client
operation that succeeds, or a progress step of the task bound to an
identifier (each task starts at most once and finishes at most once,
enforced by its recorded phase). -/
inductive Step : SysState → SysState → Prop where
  | ofSubmit (st : SysState) (req : Request) (st' : SysState) (id : Nat) :
      submit st req = Except.ok (st', id) → Step st st'
  | ofTaskStart (st : SysState) (id : Nat) :
      lookup st.tasks id = some TaskPhase.notStarted → Step st (taskStart st id)
  | ofTaskComplete (st : SysState) (id : Nat) (text : String) :
      lookup st.tasks id = some TaskPhase.started → Step st (taskComplete st id text)
  | ofTaskFail (st : SysState) (id : Nat) (msg : String) :
      lookup st.tasks id = some TaskPhase.started → Step st (taskFail st id msg)
  | ofUpdate (st : SysState) (id : Nat) (u : UpdateFields) (st' : SysState) :
      update_report st id u = Except.ok st' → Step st st'
  | ofDelete (st : SysState) (id : Nat) (st' : SysState) :
      delete_report st id = Except.ok st' → Step st st'
  | ofChatAppend (st : SysState) (id : Nat) (role content : String)
      (st' : SysState) (turn : ChatTurn) :
      chat_append st id role content = Except.ok (st', turn) → Step st st'

/-- The empty initial state of the service process. -/
def init : SysState := { reports := [], tasks := [], chats := [], nextId := 0 }

/-- States reachable from the initial state by core steps. -/
inductive Reachable : SysState → Prop where
  | base : Reachable init
  | next (s s' : SysState) : Reachable s → Step s s' → Reachable s'

/-- Zero or more core steps. -/
inductive Steps : SysState → SysState → Prop where
  | refl (s : SysState) : Steps s s
  | tail (s s' s'' : SysState) : Steps s s' → Step s' s'' → Steps s s''

end GptrCore

namespace GptrCore

theorem lookup_upsert_self {A : Type} (l : List (Nat × A)) (k : Nat) (v : A) :
    lookup (upsert l k v) k = some v := by
  induction l with
  | nil => simp [lookup, upsert]
  | cons hd tl ih =>
      obtain ⟨k₀, v₀⟩ := hd
      by_cases h : k₀ = k
      · simp [lookup, upsert, h]
      · simp [lookup, upsert, h, ih]

theorem lookup_upsert_ne {A : Type} (l : List (Nat × A)) (k k' : Nat) (v : A)
    (h : k' ≠ k) : lookup (upsert l k v) k' = lookup l k' := by
  have hkk : ¬ (k = k') := fun e => h (Eq.symm e)
  induction l with
  | nil => simp [lookup, upsert, hkk]
  | cons hd tl ih =>
      obtain ⟨k₀, v₀⟩ := hd
      by_cases hk : k₀ = k
      · subst hk
        simp [lookup, upsert, hkk]
      · by_cases hk₂ : k₀ = k'
        · simp [lookup, upsert, hk, hk₂, h]
        · simp [lookup, upsert, hk, hk₂, ih]

theorem lookup_removeKey_self {A : Type} (l : List (Nat × A)) (k : Nat) :
    lookup (removeKey l k) k = none := by
  induction l with
  | nil => simp [lookup, removeKey]
  | cons hd tl ih =>
      obtain ⟨k₀, v₀⟩ := hd
      by_cases h : k₀ = k
      · simp [removeKey, h, ih]
      · simp [removeKey, lookup, h, ih]

theorem lookup_removeKey_ne {A : Type} (l : List (Nat × A)) (k k' : Nat)
    (h : k' ≠ k) : lookup (removeKey l k) k' = lookup l k' := by
  have hkk : ¬ (k = k') := fun e => h (Eq.symm e)
  induction l with
  | nil => simp [removeKey]
  | cons hd tl ih =>
      obtain ⟨k₀, v₀⟩ := hd
      by_cases hk : k₀ = k
      · subst hk
        simp [removeKey, lookup, hkk, ih]
      · by_cases hk₂ : k₀ = k'
        · simp [removeKey, lookup, hk, hk₂, h]
        · simp [removeKey, lookup, hk, hk₂, ih]

theorem not_mem_keys_of_lookup_none {A : Type} (l : List (Nat × A)) (k : Nat)
    (h : lookup l k = none) : k ∉ l.map Prod.fst := by
  induction l with
  | nil => simp
  | cons hd tl ih =>
      obtain ⟨k₀, v₀⟩ := hd
      by_cases hk : k₀ = k
      · simp [lookup, hk] at h
      · simp only [lookup, if_neg hk] at h
        simp only [List.map_cons, List.mem_cons]
        push_neg
        exact ⟨fun e => hk (Eq.symm e), ih h⟩

theorem mem_keys_upsert {A : Type} (l : List (Nat × A)) (k k₁ : Nat) (v : A)
    (h : k₁ ∈ (upsert l k v).map Prod.fst) : k₁ ∈ l.map Prod.fst ∨ k₁ = k := by
  induction l with
  | nil =>
      simp only [upsert, List.map_cons, List.map_nil, List.mem_cons,
        List.not_mem_nil, or_false] at h
      exact Or.inr h
  | cons hd tl ih =>
      obtain ⟨k₀, v₀⟩ := hd
      by_cases hk : k₀ = k
      · simp only [upsert, if_pos hk] at h
        simp only [List.map_cons, List.mem_cons] at h ⊢
        exact Or.inl h
      · simp only [upsert, if_neg hk, List.map_cons, List.mem_cons] at h
        simp only [List.map_cons, List.mem_cons]
        rcases h with h | h
        · exact Or.inl (Or.inl h)
        · rcases ih h with h' | h'
          · exact Or.inl (Or.inr h')
          · exact Or.inr h'

theorem nodup_keys_upsert {A : Type} (l : List (Nat × A)) (k : Nat) (v : A)
    (h : (l.map Prod.fst).Nodup) : ((upsert l k v).map Prod.fst).Nodup := by
  induction l with
  | nil => simp [upsert]
  | cons hd tl ih =>
      obtain ⟨k₀, v₀⟩ := hd
      simp only [List.map_cons, List.nodup_cons] at h
      by_cases hk : k₀ = k
      · simp only [upsert, if_pos hk, List.map_cons, List.nodup_cons]
        exact h
      · simp only [upsert, if_neg hk, List.map_cons, List.nodup_cons]
        refine ⟨fun hmem => ?_, ih h.2⟩
        rcases mem_keys_upsert tl k k₀ v hmem with h' | h'
        · exact h.1 h'
        · exact hk h'

theorem maxSeq_eq_foldr (t : List ChatTurn) :
    maxSeq t = (t.map ChatTurn.sequence).foldr max 0 := by
  induction t with
  | nil => rfl
  | cons hd tl ih =>
      simp only [maxSeq, List.foldr_cons, List.map_cons] at ih ⊢
      rw [ih]

theorem foldr_max_range' (n a : Nat) :
    (List.range' a n).foldr max 0 = if n = 0 then 0 else a + n - 1 := by
  induction n generalizing a with
  | zero => simp
  | succ m ih =>
      rw [List.range'_succ]
      simp only [List.foldr]
      rw [ih (a + 1)]
      by_cases hm : m = 0
      · simp [hm]
      · simp only [if_neg hm, if_neg (Nat.succ_ne_zero m)]
        omega

theorem maxSeq_of_range (t : List ChatTurn)
    (h : t.map ChatTurn.sequence = List.range' 1 t.length) :
    maxSeq t = t.length := by
  rw [maxSeq_eq_foldr, h, foldr_max_range']
  by_cases hl : t.length = 0 <;> simp [hl]

/-- The spec section 3 presence discipline of one Report: `content` only
with `completed`, `error` only with `failed`, neither while `pending` or
`running`. -/
def PresenceOk (r : Report) : Prop :=
  (r.status = Status.completed → r.content.isSome ∧ r.error = none) ∧
  (r.status = Status.failed → r.error.isSome ∧ r.content = none) ∧
  ((r.status = Status.pending ∨ r.status = Status.running) →
    r.content = none ∧ r.error = none)

/-- The state invariant the spec asserts, proved below to hold in every
reachable state: identifiers below the counter are the only ones in use,
each identifier has at most one task handle, a not-yet-started task sits
on a `pending` report and a started one on a `running` report, every
stored report satisfies the presence discipline, and every transcript's
sequence values are exactly 1..n. -/
structure Inv (st : SysState) : Prop where
  freshReports : ∀ id, st.nextId ≤ id → lookup st.reports id = none
  freshTasks : ∀ id, st.nextId ≤ id → lookup st.tasks id = none
  nodupTasks : (st.tasks.map Prod.fst).Nodup
  phaseStatus : ∀ id r ph, lookup st.reports id = some r →
    lookup st.tasks id = some ph →
    (ph = TaskPhase.notStarted → r.status = Status.pending) ∧
    (ph = TaskPhase.started → r.status = Status.running)
  presence : ∀ id r, lookup st.reports id = some r → PresenceOk r
  chatSeq : ∀ id t, lookup st.chats id = some t →
    t.map ChatTurn.sequence = List.range' 1 t.length

theorem lt_nextId_of_report {st : SysState} {id : Nat} {r : Report}
    (hI : Inv st) (h : lookup st.reports id = some r) : id < st.nextId := by
  by_contra hlt
  rw [hI.freshReports id (by omega)] at h
  exact Option.noConfusion h

theorem lt_nextId_of_task {st : SysState} {id : Nat} {ph : TaskPhase}
    (hI : Inv st) (h : lookup st.tasks id = some ph) : id < st.nextId := by
  by_contra hlt
  rw [hI.freshTasks id (by omega)] at h
  exact Option.noConfusion h

theorem inv_init : Inv init := by
  refine ⟨?_, ?_, ?_, ?_, ?_, ?_⟩ <;> intros <;> simp_all [init, lookup]

theorem inv_submit {st : SysState} {req : Request} {st' : SysState} {id₀ : Nat}
    (hI : Inv st) (h : submit st req = Except.ok (st', id₀)) : Inv st' := by
  by_cases hv : validRequest req
  · simp only [submit, if_pos hv, Except.ok.injEq, Prod.mk.injEq] at h
    obtain ⟨h1, h2⟩ := h
    subst h1
    refine ⟨?_, ?_, ?_, ?_, ?_, ?_⟩
    · intro id hle
      simp only at hle
      have hne : ¬ (st.nextId = id) := by omega
      simp only [lookup, if_neg hne]
      exact hI.freshReports id (by omega)
    · intro id hle
      simp only at hle
      have hne : ¬ (st.nextId = id) := by omega
      simp only [lookup, if_neg hne]
      exact hI.freshTasks id (by omega)
    · simp only [List.map_cons, List.nodup_cons]
      exact ⟨not_mem_keys_of_lookup_none st.tasks st.nextId
        (hI.freshTasks st.nextId (Nat.le_refl _)), hI.nodupTasks⟩
    · intro id r ph hr hp
      by_cases hid : st.nextId = id
      · simp only [lookup, if_pos hid] at hr hp
        obtain rfl := Option.some.inj hr
        obtain rfl := Option.some.inj hp
        exact ⟨fun _ => rfl, fun e => TaskPhase.noConfusion e⟩
      · simp only [lookup, if_neg hid] at hr hp
        exact hI.phaseStatus id r ph hr hp
    · intro id r hr
      by_cases hid : st.nextId = id
      · simp only [lookup, if_pos hid] at hr
        obtain rfl := Option.some.inj hr
        simp [PresenceOk]
      · simp only [lookup, if_neg hid] at hr
        exact hI.presence id r hr
    · intro id t ht
      exact hI.chatSeq id t ht
  · simp [submit, if_neg hv] at h

theorem inv_taskStart {st : SysState} {id₀ : Nat}
    (hI : Inv st) (ht : lookup st.tasks id₀ = some TaskPhase.notStarted) :
    Inv (taskStart st id₀) := by
  have hlt : id₀ < st.nextId := lt_nextId_of_task hI ht
  cases hr : lookup st.reports id₀ with
  | some r =>
      have hpend : r.status = Status.pending :=
        (hI.phaseStatus id₀ r TaskPhase.notStarted hr ht).1 rfl
      refine ⟨?_, ?_, ?_, ?_, ?_, ?_⟩ <;> simp only [taskStart, hr]
      · intro id hle
        rw [lookup_upsert_ne _ _ _ _ (by omega)]
        exact hI.freshReports id hle
      · intro id hle
        rw [lookup_upsert_ne _ _ _ _ (by omega)]
        exact hI.freshTasks id hle
      · exact nodup_keys_upsert _ _ _ hI.nodupTasks
      · intro id r₂ ph₂ hr₂ hp₂
        by_cases hid : id = id₀
        · subst hid
          rw [lookup_upsert_self] at hr₂ hp₂
          obtain rfl := Option.some.inj hr₂
          obtain rfl := Option.some.inj hp₂
          exact ⟨fun e => TaskPhase.noConfusion e, fun _ => rfl⟩
        · rw [lookup_upsert_ne _ _ _ _ hid] at hr₂ hp₂
          exact hI.phaseStatus id r₂ ph₂ hr₂ hp₂
      · intro id r₂ hr₂
        by_cases hid : id = id₀
        · subst hid
          rw [lookup_upsert_self] at hr₂
          obtain rfl := Option.some.inj hr₂
          have hpres := hI.presence _ r hr
          have hnone := hpres.2.2 (Or.inl hpend)
          exact ⟨fun e => Status.noConfusion e, fun e => Status.noConfusion e,
            fun _ => hnone⟩
        · rw [lookup_upsert_ne _ _ _ _ hid] at hr₂
          exact hI.presence id r₂ hr₂
      · exact hI.chatSeq
  | none =>
      refine ⟨?_, ?_, ?_, ?_, ?_, ?_⟩ <;> simp only [taskStart, hr]
      · exact hI.freshReports
      · intro id hle
        rw [lookup_upsert_ne _ _ _ _ (by omega)]
        exact hI.freshTasks id hle
      · exact nodup_keys_upsert _ _ _ hI.nodupTasks
      · intro id r₂ ph₂ hr₂ hp₂
        by_cases hid : id = id₀
        · subst hid
          rw [hr] at hr₂
          exact Option.noConfusion hr₂
        · rw [lookup_upsert_ne _ _ _ _ hid] at hp₂
          exact hI.phaseStatus id r₂ ph₂ hr₂ hp₂
      · exact hI.presence
      · exact hI.chatSeq

theorem inv_taskComplete {st : SysState} {id₀ : Nat} {text : String}
    (hI : Inv st) (ht : lookup st.tasks id₀ = some TaskPhase.started) :
    Inv (taskComplete st id₀ text) := by
  have hlt : id₀ < st.nextId := lt_nextId_of_task hI ht
  cases hr : lookup st.reports id₀ with
  | some r =>
      refine ⟨?_, ?_, ?_, ?_, ?_, ?_⟩ <;> simp only [taskComplete, hr]
      · intro id hle
        rw [lookup_upsert_ne _ _ _ _ (by omega)]
        exact hI.freshReports id hle
      · intro id hle
        rw [lookup_upsert_ne _ _ _ _ (by omega)]
        exact hI.freshTasks id hle
      · exact nodup_keys_upsert _ _ _ hI.nodupTasks
      · intro id r₂ ph₂ hr₂ hp₂
        by_cases hid : id = id₀
        · subst hid
          rw [lookup_upsert_self] at hp₂
          obtain rfl := Option.some.inj hp₂
          exact ⟨fun e => TaskPhase.noConfusion e, fun e => TaskPhase.noConfusion e⟩
        · rw [lookup_upsert_ne _ _ _ _ hid] at hr₂ hp₂
          exact hI.phaseStatus id r₂ ph₂ hr₂ hp₂
      · intro id r₂ hr₂
        by_cases hid : id = id₀
        · subst hid
          rw [lookup_upsert_self] at hr₂
          obtain rfl := Option.some.inj hr₂
          exact ⟨fun _ => ⟨rfl, rfl⟩, fun e => Status.noConfusion e,
            fun e => by rcases e with e | e <;> exact Status.noConfusion e⟩
        · rw [lookup_upsert_ne _ _ _ _ hid] at hr₂
          exact hI.presence id r₂ hr₂
      · exact hI.chatSeq
  | none =>
      refine ⟨?_, ?_, ?_, ?_, ?_, ?_⟩ <;> simp only [taskComplete, hr]
      · exact hI.freshReports
      · intro id hle
        rw [lookup_upsert_ne _ _ _ _ (by omega)]
        exact hI.freshTasks id hle
      · exact nodup_keys_upsert _ _ _ hI.nodupTasks
      · intro id r₂ ph₂ hr₂ hp₂
        by_cases hid : id = id₀
        · subst hid
          rw [hr] at hr₂
          exact Option.noConfusion hr₂
        · rw [lookup_upsert_ne _ _ _ _ hid] at hp₂
          exact hI.phaseStatus id r₂ ph₂ hr₂ hp₂
      · exact hI.presence
      · exact hI.chatSeq

theorem inv_taskFail {st : SysState} {id₀ : Nat} {msg : String}
    (hI : Inv st) (ht : lookup st.tasks id₀ = some TaskPhase.started) :
    Inv (taskFail st id₀ msg) := by
  have hlt : id₀ < st.nextId := lt_nextId_of_task hI ht
  cases hr : lookup st.reports id₀ with
  | some r =>
      refine ⟨?_, ?_, ?_, ?_, ?_, ?_⟩ <;> simp only [taskFail, hr]
      · intro id hle
        rw [lookup_upsert_ne _ _ _ _ (by omega)]
        exact hI.freshReports id hle
      · intro id hle
        rw [lookup_upsert_ne _ _ _ _ (by omega)]
        exact hI.freshTasks id hle
      · exact nodup_keys_upsert _ _ _ hI.nodupTasks
      · intro id r₂ ph₂ hr₂ hp₂
        by_cases hid : id = id₀
        · subst hid
          rw [lookup_upsert_self] at hp₂
          obtain rfl := Option.some.inj hp₂
          exact ⟨fun e => TaskPhase.noConfusion e, fun e => TaskPhase.noConfusion e⟩
        · rw [lookup_upsert_ne _ _ _ _ hid] at hr₂ hp₂
          exact hI.phaseStatus id r₂ ph₂ hr₂ hp₂
      · intro id r₂ hr₂
        by_cases hid : id = id₀
        · subst hid
          rw [lookup_upsert_self] at hr₂
          obtain rfl := Option.some.inj hr₂
          exact ⟨fun e => Status.noConfusion e, fun _ => ⟨rfl, rfl⟩,
            fun e => by rcases e with e | e <;> exact Status.noConfusion e⟩
        · rw [lookup_upsert_ne _ _ _ _ hid] at hr₂
          exact hI.presence id r₂ hr₂
      · exact hI.chatSeq
  | none =>
      refine ⟨?_, ?_, ?_, ?_, ?_, ?_⟩ <;> simp only [taskFail, hr]
      · exact hI.freshReports
      · intro id hle
        rw [lookup_upsert_ne _ _ _ _ (by omega)]
        exact hI.freshTasks id hle
      · exact nodup_keys_upsert _ _ _ hI.nodupTasks
      · intro id r₂ ph₂ hr₂ hp₂
        by_cases hid : id = id₀
        · subst hid
          rw [hr] at hr₂
          exact Option.noConfusion hr₂
        · rw [lookup_upsert_ne _ _ _ _ hid] at hp₂
          exact hI.phaseStatus id r₂ ph₂ hr₂ hp₂
      · exact hI.presence
      · exact hI.chatSeq

theorem inv_update {st : SysState} {id₀ : Nat} {u : UpdateFields} {st' : SysState}
    (hI : Inv st) (h : update_report st id₀ u = Except.ok st') : Inv st' := by
  cases hr : lookup st.reports id₀ with
  | none => simp [update_report, hr] at h
  | some r =>
      have hlt : id₀ < st.nextId := lt_nextId_of_report hI hr
      simp only [update_report, hr] at h
      by_cases hs : u.status.isSome
      · rw [if_pos hs] at h
        exact absurd h (by simp)
      · rw [if_neg hs] at h
        by_cases hc : (u.content.isSome && (r.status != Status.completed)) = true
        · rw [if_pos hc] at h
          exact absurd h (by simp)
        · rw [if_neg hc] at h
          simp only [Except.ok.injEq] at h
          subst h
          refine ⟨?_, ?_, ?_, ?_, ?_, ?_⟩
          · intro id hle
            simp only at hle ⊢
            rw [lookup_upsert_ne _ _ _ _ (by omega)]
            exact hI.freshReports id hle
          · exact hI.freshTasks
          · exact hI.nodupTasks
          · intro id r₂ ph₂ hr₂ hp₂
            by_cases hid : id = id₀
            · subst hid
              simp only [lookup_upsert_self] at hr₂
              obtain rfl := Option.some.inj hr₂
              exact hI.phaseStatus _ r ph₂ hr hp₂
            · simp only [lookup_upsert_ne _ _ _ _ hid] at hr₂
              exact hI.phaseStatus id r₂ ph₂ hr₂ hp₂
          · intro id r₂ hr₂
            by_cases hid : id = id₀
            · subst hid
              simp only [lookup_upsert_self] at hr₂
              obtain rfl := Option.some.inj hr₂
              have hp := hI.presence _ r hr
              cases hc2 : u.content with
              | none => simpa [PresenceOk, hc2] using hp
              | some c =>
                  have hcomp : r.status = Status.completed := by
                    rw [hc2] at hc
                    simp only [Option.isSome_some, Bool.true_and,
                      bne_iff_ne, ne_eq] at hc
                    exact not_not.mp hc
                  simp [PresenceOk, hc2, hcomp, (hp.1 hcomp).2]
            · simp only [lookup_upsert_ne _ _ _ _ hid] at hr₂
              exact hI.presence id r₂ hr₂
          · exact hI.chatSeq

theorem inv_delete {st : SysState} {id₀ : Nat} {st' : SysState}
    (hI : Inv st) (h : delete_report st id₀ = Except.ok st') : Inv st' := by
  cases hr : lookup st.reports id₀ with
  | none => simp [delete_report, hr] at h
  | some r =>
      simp only [delete_report, hr, Except.ok.injEq] at h
      subst h
      refine ⟨?_, ?_, ?_, ?_, ?_, ?_⟩
      · intro id hle
        by_cases hid : id = id₀
        · subst hid
          exact lookup_removeKey_self _ _
        · rw [lookup_removeKey_ne _ _ _ hid]
          exact hI.freshReports id hle
      · exact hI.freshTasks
      · exact hI.nodupTasks
      · intro id r₂ ph₂ hr₂ hp₂
        by_cases hid : id = id₀
        · subst hid
          rw [lookup_removeKey_self] at hr₂
          exact Option.noConfusion hr₂
        · rw [lookup_removeKey_ne _ _ _ hid] at hr₂
          exact hI.phaseStatus id r₂ ph₂ hr₂ hp₂
      · intro id r₂ hr₂
        by_cases hid : id = id₀
        · subst hid
          rw [lookup_removeKey_self] at hr₂
          exact Option.noConfusion hr₂
        · rw [lookup_removeKey_ne _ _ _ hid] at hr₂
          exact hI.presence id r₂ hr₂
      · intro id t ht
        by_cases hid : id = id₀
        · subst hid
          rw [lookup_removeKey_self] at ht
          exact Option.noConfusion ht
        · rw [lookup_removeKey_ne _ _ _ hid] at ht
          exact hI.chatSeq id t ht

theorem map_seq_extend {st : SysState} {id₀ : Nat} (hI : Inv st) (turn : ChatTurn)
    (hseq : turn.sequence = maxSeq ((lookup st.chats id₀).getD []) + 1) :
    (((lookup st.chats id₀).getD []) ++ [turn]).map ChatTurn.sequence =
      List.range' 1 (((lookup st.chats id₀).getD []) ++ [turn]).length := by
  have hts : ((lookup st.chats id₀).getD []).map ChatTurn.sequence =
      List.range' 1 ((lookup st.chats id₀).getD []).length := by
    cases hc : lookup st.chats id₀ with
    | some t₀ => simpa using hI.chatSeq id₀ t₀ hc
    | none => simp
  have hmax : maxSeq ((lookup st.chats id₀).getD []) =
      ((lookup st.chats id₀).getD []).length := maxSeq_of_range _ hts
  rw [List.map_append, hts, List.length_append]
  simp only [List.map_cons, List.map_nil, List.length_cons, List.length_nil,
    hseq, hmax]
  rw [List.range'_concat]
  simp [Nat.add_comm]

theorem inv_chatAppend {st : SysState} {id₀ : Nat} {role content : String}
    {st' : SysState} {turn : ChatTurn}
    (hI : Inv st) (h : chat_append st id₀ role content = Except.ok (st', turn)) :
    Inv st' := by
  cases hr : lookup st.reports id₀ with
  | none => simp [chat_append, hr] at h
  | some r =>
      have hshape : st' = { st with chats := upsert st.chats id₀ ((lookup st.chats id₀).getD [] ++ [turn]) } ∧
          turn = { role := role, content := content, sequence := maxSeq ((lookup st.chats id₀).getD []) + 1 } := by
        cases hst : r.status with
        | pending => simp [chat_append, hr, hst] at h
        | running => simp [chat_append, hr, hst] at h
        | completed =>
            simp only [chat_append, hr, hst, Except.ok.injEq, Prod.mk.injEq] at h
            obtain ⟨h1, h2⟩ := h
            subst h2
            exact ⟨h1.symm, rfl⟩
        | failed =>
            simp only [chat_append, hr, hst, Except.ok.injEq, Prod.mk.injEq] at h
            obtain ⟨h1, h2⟩ := h
            subst h2
            exact ⟨h1.symm, rfl⟩
      obtain ⟨h1, h2⟩ := hshape
      subst h1
      refine ⟨hI.freshReports, hI.freshTasks, hI.nodupTasks, hI.phaseStatus,
        hI.presence, ?_⟩
      intro id t ht
      by_cases hid : id = id₀
      · subst hid
        simp only [lookup_upsert_self] at ht
        obtain rfl := Option.some.inj ht
        exact map_seq_extend hI turn (by rw [h2])
      · simp only [lookup_upsert_ne _ _ _ _ hid] at ht
        exact hI.chatSeq id t ht

theorem inv_step {st st' : SysState} (hI : Inv st) (hS : Step st st') : Inv st' := by
  cases hS with
  | ofSubmit req s2 id h => exact inv_submit hI h
  | ofTaskStart id ht => exact inv_taskStart hI ht
  | ofTaskComplete id text ht => exact inv_taskComplete hI ht
  | ofTaskFail id msg ht => exact inv_taskFail hI ht
  | ofUpdate id u s2 h => exact inv_update hI h
  | ofDelete id s2 h => exact inv_delete hI h
  | ofChatAppend id role content s2 turn h => exact inv_chatAppend hI h

theorem reachable_inv {st : SysState} (h : Reachable st) : Inv st := by
  induction h with
  | base => exact inv_init
  | next s s' hr hs ih => exact inv_step ih hs

theorem submit_ok_shape {st : SysState} {req : Request} {st' : SysState} {id₀ : Nat}
    (h : submit st req = Except.ok (st', id₀)) :
    validRequest req = true ∧ id₀ = st.nextId ∧
    st'.reports = (st.nextId, { id := st.nextId, task := req.task, status := Status.pending, content := none, error := none }) :: st.reports ∧
    st'.tasks = (st.nextId, TaskPhase.notStarted) :: st.tasks ∧
    st'.chats = st.chats ∧ st'.nextId = st.nextId + 1 := by
  by_cases hv : validRequest req
  · simp only [submit, if_pos hv, Except.ok.injEq, Prod.mk.injEq] at h
    obtain ⟨h1, h2⟩ := h
    subst h1
    exact ⟨hv, h2.symm, rfl, rfl, rfl, rfl⟩
  · simp [submit, if_neg hv] at h

theorem update_report_ok_shape {st : SysState} {id₀ : Nat} {u : UpdateFields}
    {st' : SysState} (h : update_report st id₀ u = Except.ok st') :
    ∃ r r', lookup st.reports id₀ = some r ∧ r'.status = r.status ∧
      st'.reports = upsert st.reports id₀ r' ∧ st'.tasks = st.tasks ∧
      st'.chats = st.chats ∧ st'.nextId = st.nextId := by
  cases hr : lookup st.reports id₀ with
  | none => simp [update_report, hr] at h
  | some r =>
      simp only [update_report, hr] at h
      by_cases hs : u.status.isSome
      · rw [if_pos hs] at h
        exact absurd h (by simp)
      · rw [if_neg hs] at h
        by_cases hc : (u.content.isSome && (r.status != Status.completed)) = true
        · rw [if_pos hc] at h
          exact absurd h (by simp)
        · rw [if_neg hc] at h
          simp only [Except.ok.injEq] at h
          subst h
          refine ⟨r, { r with task := u.task.getD r.task, content := (match u.content with | some c => some c | none => r.content) }, rfl, rfl, rfl, rfl, rfl, rfl⟩

theorem delete_report_ok_shape {st : SysState} {id₀ : Nat} {st' : SysState}
    (h : delete_report st id₀ = Except.ok st') :
    (∃ r, lookup st.reports id₀ = some r) ∧
    st'.reports = removeKey st.reports id₀ ∧ st'.tasks = st.tasks ∧
    st'.chats = removeKey st.chats id₀ ∧ st'.nextId = st.nextId := by
  cases hr : lookup st.reports id₀ with
  | none => simp [delete_report, hr] at h
  | some r =>
      simp only [delete_report, hr, Except.ok.injEq] at h
      subst h
      exact ⟨⟨r, rfl⟩, rfl, rfl, rfl, rfl⟩

theorem chat_append_ok_shape {st : SysState} {id₀ : Nat} {role content : String}
    {st' : SysState} {turn : ChatTurn}
    (h : chat_append st id₀ role content = Except.ok (st', turn)) :
    (∃ r, lookup st.reports id₀ = some r ∧
      (r.status = Status.completed ∨ r.status = Status.failed)) ∧
    st'.reports = st.reports ∧ st'.tasks = st.tasks ∧ st'.nextId = st.nextId ∧
    st'.chats = upsert st.chats id₀ ((lookup st.chats id₀).getD [] ++ [turn]) ∧
    turn = { role := role, content := content, sequence := maxSeq ((lookup st.chats id₀).getD []) + 1 } := by
  cases hr : lookup st.reports id₀ with
  | none => simp [chat_append, hr] at h
  | some r =>
      cases hst : r.status with
      | pending => simp [chat_append, hr, hst] at h
      | running => simp [chat_append, hr, hst] at h
      | completed =>
          simp only [chat_append, hr, hst, Except.ok.injEq, Prod.mk.injEq] at h
          obtain ⟨h1, h2⟩ := h
          subst h2
          subst h1
          exact ⟨⟨r, rfl, Or.inl hst⟩, rfl, rfl, rfl, rfl, rfl⟩
      | failed =>
          simp only [chat_append, hr, hst, Except.ok.injEq, Prod.mk.injEq] at h
          obtain ⟨h1, h2⟩ := h
          subst h2
          subst h1
          exact ⟨⟨r, rfl, Or.inr hst⟩, rfl, rfl, rfl, rfl, rfl⟩

/-- A deleted (or never-created) identifier: no stored report, and below
the allocation counter so no later `submit` can reuse it. -/
def Dead (st : SysState) (id : Nat) : Prop :=
  lookup st.reports id = none ∧ id < st.nextId

theorem dead_step {st st' : SysState} {id : Nat}
    (hS : Step st st') (hD : Dead st id) : Dead st' id := by
  obtain ⟨hnone, hlt⟩ := hD
  cases hS with
  | ofSubmit req s2 id₀ h =>
      obtain ⟨hv, hid, hrep, htk, hch, hnx⟩ := submit_ok_shape h
      constructor
      · rw [hrep]
        simp only [lookup]
        rw [if_neg (by omega : ¬ (st.nextId = id))]
        exact hnone
      · omega
  | ofTaskStart id₀ ht =>
      cases hr : lookup st.reports id₀ with
      | some r =>
          have hne : id ≠ id₀ := fun e => by
            rw [e, hr] at hnone
            exact Option.noConfusion hnone
          refine ⟨?_, by simp [taskStart, hr]; omega⟩
          simp only [taskStart, hr]
          rw [lookup_upsert_ne _ _ _ _ hne]
          exact hnone
      | none => exact ⟨by simp only [taskStart, hr]; exact hnone, by simp [taskStart, hr]; omega⟩
  | ofTaskComplete id₀ text ht =>
      cases hr : lookup st.reports id₀ with
      | some r =>
          have hne : id ≠ id₀ := fun e => by
            rw [e, hr] at hnone
            exact Option.noConfusion hnone
          refine ⟨?_, by simp [taskComplete, hr]; omega⟩
          simp only [taskComplete, hr]
          rw [lookup_upsert_ne _ _ _ _ hne]
          exact hnone
      | none => exact ⟨by simp only [taskComplete, hr]; exact hnone, by simp [taskComplete, hr]; omega⟩
  | ofTaskFail id₀ msg ht =>
      cases hr : lookup st.reports id₀ with
      | some r =>
          have hne : id ≠ id₀ := fun e => by
            rw [e, hr] at hnone
            exact Option.noConfusion hnone
          refine ⟨?_, by simp [taskFail, hr]; omega⟩
          simp only [taskFail, hr]
          rw [lookup_upsert_ne _ _ _ _ hne]
          exact hnone
      | none => exact ⟨by simp only [taskFail, hr]; exact hnone, by simp [taskFail, hr]; omega⟩
  | ofUpdate id₀ u s2 h =>
      obtain ⟨r, r', hr, hst, hrep, htk, hch, hnx⟩ := update_report_ok_shape h
      have hne : id ≠ id₀ := fun e => by
        rw [e, hr] at hnone
        exact Option.noConfusion hnone
      constructor
      · rw [hrep, lookup_upsert_ne _ _ _ _ hne]
        exact hnone
      · omega
  | ofDelete id₀ s2 h =>
      obtain ⟨⟨r, hr⟩, hrep, htk, hch, hnx⟩ := delete_report_ok_shape h
      constructor
      · rw [hrep]
        by_cases hid : id = id₀
        · subst hid
          exact lookup_removeKey_self _ _
        · rw [lookup_removeKey_ne _ _ _ hid]
          exact hnone
      · omega
  | ofChatAppend id₀ role content s2 turn h =>
      obtain ⟨_, hrep, htk, hnx, hch, hturn⟩ := chat_append_ok_shape h
      constructor
      · rw [hrep]
        exact hnone
      · omega

theorem dead_steps {st st' : SysState} {id : Nat}
    (hS : Steps st st') (hD : Dead st id) : Dead st' id := by
  induction hS with
  | refl => exact hD
  | tail s' s'' hsteps hstep ih => exact dead_step hstep ih

/-- A concrete valid generation request used to exercise the model. -/
def exReq : Request :=
  { task := "X", report_type := "research_report", report_source := "web",
    tone := "objective", generate_in_background := true }

/-- The pending report `submit init exReq` stores under identifier 0. -/
def exRep1 : Report :=
  { id := 0, task := "X", status := Status.pending, content := none, error := none }

/-- The state after submitting `exReq` to the empty service. -/
def exSt1 : SysState :=
  { reports := [(0, exRep1)], tasks := [(0, TaskPhase.notStarted)],
    chats := [], nextId := 1 }

theorem reachable_exSt1 : Reachable exSt1 :=
  Reachable.next init exSt1 Reachable.base
    (Step.ofSubmit init exReq exSt1 0 rfl)

/-- The state after the task bound to identifier 0 starts. -/
def exSt2 : SysState := taskStart exSt1 0

/-- The state after the task bound to identifier 0 completes. -/
def exSt3 : SysState := taskComplete exSt2 0 "result"

theorem reachable_exSt2 : Reachable exSt2 :=
  Reachable.next exSt1 exSt2 reachable_exSt1 (Step.ofTaskStart exSt1 0 (by decide))

theorem reachable_exSt3 : Reachable exSt3 :=
  Reachable.next exSt2 exSt3 reachable_exSt2
    (Step.ofTaskComplete exSt2 0 "result" (by decide))

/-- The state after deleting report 0 from `exSt1`. -/
def exSt1del : SysState :=
  { reports := [], tasks := [(0, TaskPhase.notStarted)], chats := [], nextId := 1 }

/-- C1: in every reachable state, every status change performed by a core
step moves one step along the chain pending to running to completed or
failed: a stored report's status is either unchanged by the step, or goes
from `pending` to `running`, or from `running` to a terminal state; no
step skips `running` and none reverses. -/
theorem status_transitions_follow_chain (st st' : SysState) (hR : Reachable st)
    (hS : Step st st') (id : Nat) (r r' : Report)
    (h : lookup st.reports id = some r) (h' : lookup st'.reports id = some r') :
    r.status = r'.status
    ∨ (r.status = Status.pending ∧ r'.status = Status.running)
    ∨ (r.status = Status.running ∧
        (r'.status = Status.completed ∨ r'.status = Status.failed)) := by
  have hI := reachable_inv hR
  cases hS with
  | ofSubmit req s2 id₀ hsub =>
      obtain ⟨hv, hid, hrep, htk, hch, hnx⟩ := submit_ok_shape hsub
      have hlt : id < st.nextId := lt_nextId_of_report hI h
      rw [hrep] at h'
      simp only [lookup] at h'
      rw [if_neg (by omega : ¬ (st.nextId = id))] at h'
      rw [h] at h'
      obtain rfl := Option.some.inj h'
      exact Or.inl rfl
  | ofTaskStart id₀ ht =>
      cases hrl : lookup st.reports id₀ with
      | some r₀ =>
          by_cases hid : id = id₀
          · subst hid
            rw [hrl] at h
            obtain rfl := Option.some.inj h
            simp only [taskStart, hrl] at h'
            rw [lookup_upsert_self] at h'
            obtain rfl := Option.some.inj h'
            have hpend : r₀.status = Status.pending :=
              (hI.phaseStatus id r₀ TaskPhase.notStarted hrl ht).1 rfl
            exact Or.inr (Or.inl ⟨hpend, rfl⟩)
          · simp only [taskStart, hrl] at h'
            rw [lookup_upsert_ne _ _ _ _ hid] at h'
            rw [h] at h'
            obtain rfl := Option.some.inj h'
            exact Or.inl rfl
      | none =>
          simp only [taskStart, hrl] at h'
          rw [h] at h'
          obtain rfl := Option.some.inj h'
          exact Or.inl rfl
  | ofTaskComplete id₀ text ht =>
      cases hrl : lookup st.reports id₀ with
      | some r₀ =>
          by_cases hid : id = id₀
          · subst hid
            rw [hrl] at h
            obtain rfl := Option.some.inj h
            simp only [taskComplete, hrl] at h'
            rw [lookup_upsert_self] at h'
            obtain rfl := Option.some.inj h'
            have hrun : r₀.status = Status.running :=
              (hI.phaseStatus id r₀ TaskPhase.started hrl ht).2 rfl
            exact Or.inr (Or.inr ⟨hrun, Or.inl rfl⟩)
          · simp only [taskComplete, hrl] at h'
            rw [lookup_upsert_ne _ _ _ _ hid] at h'
            rw [h] at h'
            obtain rfl := Option.some.inj h'
            exact Or.inl rfl
      | none =>
          simp only [taskComplete, hrl] at h'
          rw [h] at h'
          obtain rfl := Option.some.inj h'
          exact Or.inl rfl
  | ofTaskFail id₀ msg ht =>
      cases hrl : lookup st.reports id₀ with
      | some r₀ =>
          by_cases hid : id = id₀
          · subst hid
            rw [hrl] at h
            obtain rfl := Option.some.inj h
            simp only [taskFail, hrl] at h'
            rw [lookup_upsert_self] at h'
            obtain rfl := Option.some.inj h'
            have hrun : r₀.status = Status.running :=
              (hI.phaseStatus id r₀ TaskPhase.started hrl ht).2 rfl
            exact Or.inr (Or.inr ⟨hrun, Or.inr rfl⟩)
          · simp only [taskFail, hrl] at h'
            rw [lookup_upsert_ne _ _ _ _ hid] at h'
            rw [h] at h'
            obtain rfl := Option.some.inj h'
            exact Or.inl rfl
      | none =>
          simp only [taskFail, hrl] at h'
          rw [h] at h'
          obtain rfl := Option.some.inj h'
          exact Or.inl rfl
  | ofUpdate id₀ u s2 hup =>
      obtain ⟨r₀, r₁, hr₀, hst₁, hrep, htk2, hch2, hnx2⟩ := update_report_ok_shape hup
      by_cases hid : id = id₀
      · subst hid
        rw [hr₀] at h
        obtain rfl := Option.some.inj h
        rw [hrep, lookup_upsert_self] at h'
        obtain rfl := Option.some.inj h'
        exact Or.inl hst₁.symm
      · rw [hrep, lookup_upsert_ne _ _ _ _ hid] at h'
        rw [h] at h'
        obtain rfl := Option.some.inj h'
        exact Or.inl rfl
  | ofDelete id₀ s2 hdel =>
      obtain ⟨hex, hrep, htk2, hch2, hnx2⟩ := delete_report_ok_shape hdel
      by_cases hid : id = id₀
      · subst hid
        rw [hrep, lookup_removeKey_self] at h'
        exact Option.noConfusion h'
      · rw [hrep, lookup_removeKey_ne _ _ _ hid] at h'
        rw [h] at h'
        obtain rfl := Option.some.inj h'
        exact Or.inl rfl
  | ofChatAppend id₀ role content s2 turn hca =>
      obtain ⟨hex, hrep, htk2, hnx2, hch2, hturn⟩ := chat_append_ok_shape hca
      rw [hrep, h] at h'
      obtain rfl := Option.some.inj h'
      exact Or.inl rfl

/-- The running report the started task puts under identifier 0. -/
def exRep2 : Report :=
  { id := 0, task := "X", status := Status.running, content := none, error := none }

theorem status_transitions_follow_chain_witness :
    exRep1.status = exRep2.status
    ∨ (exRep1.status = Status.pending ∧ exRep2.status = Status.running)
    ∨ (exRep1.status = Status.running ∧
        (exRep2.status = Status.completed ∨ exRep2.status = Status.failed)) :=
  status_transitions_follow_chain exSt1 (taskStart exSt1 0) reachable_exSt1
    (Step.ofTaskStart exSt1 0 (by decide)) 0 exRep1 exRep2 (by decide) (by decide)

/-- C2: in every reachable state the Orchestrator's task-handle map binds
each identifier to at most one task, and a successful `submit` returns an
identifier that no existing task (in-flight or finished) holds and no
stored report uses, binding a fresh not-yet-started task to it; hence two
tasks never share write access to one Report. -/
theorem submit_assigns_unused_id (st : SysState) (hR : Reachable st)
    (req : Request) (st' : SysState) (newId : Nat)
    (h : submit st req = Except.ok (st', newId)) :
    (st.tasks.map Prod.fst).Nodup
    ∧ lookup st.tasks newId = none
    ∧ lookup st.reports newId = none
    ∧ lookup st'.tasks newId = some TaskPhase.notStarted := by
  have hI := reachable_inv hR
  obtain ⟨hv, hid, hrep, htk, hch, hnx⟩ := submit_ok_shape h
  subst hid
  refine ⟨hI.nodupTasks, hI.freshTasks _ (Nat.le_refl _),
    hI.freshReports _ (Nat.le_refl _), ?_⟩
  rw [htk]
  simp [lookup]

theorem submit_assigns_unused_id_witness :
    (init.tasks.map Prod.fst).Nodup
    ∧ lookup init.tasks 0 = none
    ∧ lookup init.reports 0 = none
    ∧ lookup exSt1.tasks 0 = some TaskPhase.notStarted :=
  submit_assigns_unused_id init Reachable.base exReq exSt1 0 rfl

/-- C3: in every reachable state every stored report satisfies the
presence discipline (content exactly with `completed`, error exactly with
`failed`, neither while `pending` or `running`), and the discipline is
preserved by every core step, i.e. by submit, the task transitions,
update and delete. -/
theorem report_presence_invariant (st : SysState) (hR : Reachable st) :
    (∀ id r, lookup st.reports id = some r → PresenceOk r)
    ∧ (∀ st', Step st st' → ∀ id r, lookup st'.reports id = some r → PresenceOk r) :=
  ⟨(reachable_inv hR).presence,
    fun _ hS => (inv_step (reachable_inv hR) hS).presence⟩

theorem report_presence_invariant_witness :
    (∀ id r, lookup exSt1.reports id = some r → PresenceOk r)
    ∧ (∀ st', Step exSt1 st' → ∀ id r, lookup st'.reports id = some r → PresenceOk r) :=
  report_presence_invariant exSt1 reachable_exSt1

/-- C4: deleting an unknown or already-deleted identifier fails with
`NotFound`; after a successful delete the identifier stays dead: a second
delete fails with `NotFound`, `get_status` fails with `NotFound`, it still
fails after a detached task completion writes to the identifier, and it
fails after any further sequence of core steps. -/
theorem delete_notfound_and_permanent (st : SysState) (hR : Reachable st) (id : Nat) :
    (lookup st.reports id = none → delete_report st id = Except.error Err.NotFound)
    ∧ (∀ st', delete_report st id = Except.ok st' →
        get_status st' id = Except.error Err.NotFound
        ∧ delete_report st' id = Except.error Err.NotFound
        ∧ (∀ text, get_status (taskComplete st' id text) id = Except.error Err.NotFound)
        ∧ (∀ st'', Steps st' st'' → get_status st'' id = Except.error Err.NotFound)) := by
  have hI := reachable_inv hR
  constructor
  · intro hnone
    simp [delete_report, hnone]
  · intro st' hdel
    obtain ⟨⟨r, hr⟩, hrep, htk, hch, hnx⟩ := delete_report_ok_shape hdel
    have hnone : lookup st'.reports id = none := by
      rw [hrep]
      exact lookup_removeKey_self _ _
    have hdead : Dead st' id := by
      refine ⟨hnone, ?_⟩
      rw [hnx]
      exact lt_nextId_of_report hI hr
    refine ⟨by simp [get_status, hnone], by simp [delete_report, hnone], ?_, ?_⟩
    · intro text
      simp only [taskComplete, hnone]
      simp [get_status, hnone]
    · intro st'' hsteps
      have hd := dead_steps hsteps hdead
      simp [get_status, hd.1]

theorem delete_notfound_and_permanent_witness :
    get_status exSt1del 0 = Except.error Err.NotFound
    ∧ delete_report exSt1del 0 = Except.error Err.NotFound :=
  ⟨((delete_notfound_and_permanent exSt1 reachable_exSt1 0).2 exSt1del rfl).1,
   ((delete_notfound_and_permanent exSt1 reachable_exSt1 0).2 exSt1del rfl).2.1⟩

/-- C5: chat `append` on an identifier with no stored report fails with
`NotFound`; on a stored report still `pending` or `running` it fails with
`NotReady`, which is a distinct error from `NotFound`; once the report is
`completed` it succeeds; and in every reachable state each transcript's
sequence values are exactly 1..n, hence strictly increasing with no
gaps. -/
theorem chat_append_readiness_and_sequencing (st : SysState) (hR : Reachable st)
    (id : Nat) (role content : String) :
    (lookup st.reports id = none →
      chat_append st id role content = Except.error Err.NotFound)
    ∧ (∀ r, lookup st.reports id = some r →
        (r.status = Status.pending ∨ r.status = Status.running) →
        chat_append st id role content = Except.error Err.NotReady)
    ∧ Err.NotReady ≠ Err.NotFound
    ∧ (∀ r, lookup st.reports id = some r → r.status = Status.completed →
        ∃ st' turn, chat_append st id role content = Except.ok (st', turn))
    ∧ (∀ t, lookup st.chats id = some t →
        t.map ChatTurn.sequence = List.range' 1 t.length) := by
  refine ⟨?_, ?_, by decide, ?_, ?_⟩
  · intro hnone
    simp [chat_append, hnone]
  · intro r hr hpr
    rcases hpr with e | e <;> simp [chat_append, hr, e]
  · intro r hr hc
    refine ⟨{ st with chats := upsert st.chats id ((lookup st.chats id).getD [] ++ [{ role := role, content := content, sequence := maxSeq ((lookup st.chats id).getD []) + 1 }]) },
      { role := role, content := content, sequence := maxSeq ((lookup st.chats id).getD []) + 1 }, ?_⟩
    simp only [chat_append, hr, hc]
  · intro t ht
    exact (reachable_inv hR).chatSeq id t ht

theorem chat_append_readiness_and_sequencing_witness :
    (∃ st' turn, chat_append exSt3 0 "user" "hi" = Except.ok (st', turn))
    ∧ chat_append exSt1 0 "user" "hi" = Except.error Err.NotReady :=
  ⟨(chat_append_readiness_and_sequencing exSt3 reachable_exSt3 0 "user" "hi").2.2.2.1
      { id := 0, task := "X", status := Status.completed, content := some "result", error := none }
      (by decide) (by decide),
   (chat_append_readiness_and_sequencing exSt1 reachable_exSt1 0 "user" "hi").2.1
      exRep1 (by decide) (Or.inl (by decide))⟩

end GptrCore

namespace GptrClient

theorem foldl_basename_no_slash (ys acc : List Char)
    (h : ∀ c ∈ ys, c ≠ '/') :
    List.foldl (fun acc c => if c = '/' then [] else acc ++ [c]) acc ys = acc ++ ys := by
  induction ys generalizing acc with
  | nil => simp
  | cons c ys ih =>
      have hc : c ≠ '/' := h c (List.mem_cons_self c ys)
      simp only [List.foldl_cons, if_neg hc]
      rw [ih _ (fun d hd => h d (List.mem_cons_of_mem c hd))]
      simp

theorem basenameList_append_slash (xs ys : List Char) :
    basenameList (xs ++ '/' :: ys) = basenameList ys := by
  simp [basenameList, List.foldl_append]

theorem basename_strips_directories (dir file : String)
    (h : ∀ c ∈ file.data, c ≠ '/') :
    basename (dir ++ "/" ++ file) = file := by
  have hd : (dir ++ "/" ++ file).data = dir.data ++ '/' :: file.data := by
    rw [String.data_append, String.data_append]
    simp
  rw [basename, hd, basenameList_append_slash, basenameList,
    foldl_basename_no_slash _ _ h]
  rfl

/-- C6: the JSON body `create_report` posts to POST `/report/` has exactly
the eight keys task, report_type, report_source, tone, headers,
repo_name, branch_name and generate_in_background, for every invocation. -/
theorem create_report_posts_exactly_eight_fields
    (base task report_type report_source tone : String) (headers : Option Json)
    (repo_name branch_name : String) (generate_in_background : Bool) :
    (create_report_request base task report_type report_source tone headers
        repo_name branch_name generate_in_background).jsonBody.map objKeys =
      some ["task", "report_type", "report_source", "tone", "headers",
        "repo_name", "branch_name", "generate_in_background"] := rfl

/-- C7: with no arguments and no environment override, the server binds
host 0.0.0.0 port 8000 while the client targets http://localhost:11250
(the GPTR_API_URL default, matching the constructor default), and the two
defaults do not match. -/
theorem server_client_default_mismatch (env : String → Option String)
    (h : env "GPTR_API_URL" = none) :
    main_base_url env = "http://localhost:11250"
    ∧ client_default_base_url = "http://localhost:11250"
    ∧ server_default_host = "0.0.0.0"
    ∧ server_default_port = 8000
    ∧ main_base_url env ≠ "http://localhost:" ++ toString server_default_port
    ∧ main_base_url env ≠ "http://" ++ server_default_host ++ ":" ++ toString server_default_port := by
  have hb : main_base_url env = "http://localhost:11250" := by
    simp [main_base_url, h]
  refine ⟨hb, rfl, rfl, rfl, ?_, ?_⟩ <;> rw [hb] <;> decide

theorem server_client_default_mismatch_witness :
    main_base_url (fun _ => none) = "http://localhost:11250"
    ∧ client_default_base_url = "http://localhost:11250"
    ∧ server_default_host = "0.0.0.0"
    ∧ server_default_port = 8000
    ∧ main_base_url (fun _ => none) ≠ "http://localhost:" ++ toString server_default_port
    ∧ main_base_url (fun _ => none) ≠ "http://" ++ server_default_host ++ ":" ++ toString server_default_port :=
  server_client_default_mismatch (fun _ => none) rfl

/-- C8: `get_report_docx` returns exactly the response body bytes when
the GET `/report/id` response status is 200 and `None` for every other
status. -/
theorem get_report_docx_status_behavior (net : Net) (base research_id : String) :
    ((net (get_report_docx_request base research_id)).status = 200 →
      get_report_docx net base research_id =
        some (net (get_report_docx_request base research_id)).content)
    ∧ ((net (get_report_docx_request base research_id)).status ≠ 200 →
      get_report_docx net base research_id = none) := by
  constructor <;> intro h <;> simp [get_report_docx, h]

/-- A 404 response used to exercise the download path. -/
def ex404 : HttpResponse :=
  { status := 404, headers := [], content := [7, 7], jsonBody := Json.null }

theorem get_report_docx_status_behavior_witness :
    get_report_docx (fun _ => ex404) "http://localhost:11250" "r1" = none :=
  (get_report_docx_status_behavior (fun _ => ex404) "http://localhost:11250" "r1").2
    (by decide)

/-- C9: every client method other than `health_check` and
`get_report_docx` returns `response.json()` unconditionally: each result
is the parsed JSON body of the response to the request the method built,
whatever its status code, so server-side errors such as 404 or 403 reach
the caller as the parsed error body rather than as an exception; two
networks agreeing on parsed bodies but differing in status codes are
indistinguishable to the caller. -/
theorem client_methods_return_parsed_body_unconditionally (net : Net)
    (base research_id file_path filename report task report_type report_source tone repo_name branch_name : String)
    (ids doc_path : Option String) (headers : Option Json) (data message : Json)
    (messages : List Json) (gib : Bool) :
    (get_reports net base ids = (net (get_reports_request base ids)).jsonBody
      ∧ get_report_by_id net base research_id = (net (get_report_by_id_request base research_id)).jsonBody
      ∧ create_report net base task report_type report_source tone headers repo_name branch_name gib
          = (net (create_report_request base task report_type report_source tone headers repo_name branch_name gib)).jsonBody
      ∧ update_report net base research_id data = (net (update_report_request base research_id data)).jsonBody
      ∧ delete_report net base research_id = (net (delete_report_request base research_id)).jsonBody
      ∧ get_report_chat net base research_id = (net (get_report_chat_request base research_id)).jsonBody
      ∧ add_chat_message net base research_id message = (net (add_chat_message_request base research_id message)).jsonBody
      ∧ chat net base report messages = (net (chat_request base report messages)).jsonBody
      ∧ list_files net base doc_path = (net (list_files_request base doc_path)).jsonBody
      ∧ upload_file net base file_path doc_path = (net (upload_file_request base file_path doc_path)).jsonBody
      ∧ delete_file net base filename doc_path = (net (delete_file_request base filename doc_path)).jsonBody)
    ∧ (∀ net2 : Net, (∀ q, (net2 q).jsonBody = (net q).jsonBody) →
        get_report_by_id net2 base research_id = get_report_by_id net base research_id
        ∧ update_report net2 base research_id data = update_report net base research_id data
        ∧ delete_report net2 base research_id = delete_report net base research_id) := by
  refine ⟨⟨rfl, rfl, rfl, rfl, rfl, rfl, rfl, rfl, rfl, rfl, rfl⟩, ?_⟩
  intro net2 hq
  exact ⟨hq _, hq _, hq _⟩

/-- A 200 response whose parsed body is the string "ok". -/
def ex200 : HttpResponse :=
  { status := 200, headers := [], content := [], jsonBody := Json.str "ok" }

/-- A 403 response with the same parsed body as `ex200`. -/
def ex403 : HttpResponse :=
  { status := 403, headers := [], content := [], jsonBody := Json.str "ok" }

theorem client_methods_return_parsed_body_unconditionally_witness :
    get_reports (fun _ => ex200) "b" none = ((fun _ => ex200 : Net) (get_reports_request "b" none)).jsonBody
    ∧ get_report_by_id (fun _ => ex403) "b" "r1" = get_report_by_id (fun _ => ex200) "b" "r1" :=
  ⟨(client_methods_return_parsed_body_unconditionally (fun _ => ex200) "b" "r1" "f"
      "n" "rep" "t" "rt" "rs" "tn" "rn" "bn" none none none Json.null Json.null [] true).1.1,
   ((client_methods_return_parsed_body_unconditionally (fun _ => ex200) "b" "r1" "f"
      "n" "rep" "t" "rt" "rs" "tn" "rn" "bn" none none none Json.null Json.null [] true).2
      (fun _ => ex403) (fun _ => rfl)).1⟩

/-- C10: `upload_file` transmits `os.path.basename(file_path)` as the
multipart filename, stripping every directory component, and
`upload_file`, `list_files` and `delete_file` all default the workspace
path parameter to "./my-docs" when it is not supplied. -/
theorem upload_basename_and_workspace_defaults
    (base file_path filename dir file : String)
    (hnoslash : ∀ c ∈ file.data, c ≠ '/') :
    (upload_file_request base file_path none).files = [("file", basename file_path)]
    ∧ basename (dir ++ "/" ++ file) = file
    ∧ (upload_file_request base file_path none).params = [("path", "./my-docs")]
    ∧ (list_files_request base none).params = [("path", "./my-docs")]
    ∧ (delete_file_request base filename none).params = [("path", "./my-docs")] :=
  ⟨rfl, basename_strips_directories dir file hnoslash, rfl, rfl, rfl⟩

theorem upload_basename_and_workspace_defaults_witness :
    (upload_file_request "b" "docs/sub/paper.txt" none).files = [("file", basename "docs/sub/paper.txt")]
    ∧ basename ("docs/sub" ++ "/" ++ "paper.txt") = "paper.txt"
    ∧ (upload_file_request "b" "docs/sub/paper.txt" none).params = [("path", "./my-docs")]
    ∧ (list_files_request "b" none).params = [("path", "./my-docs")]
    ∧ (delete_file_request "b" "f.txt" none).params = [("path", "./my-docs")] :=
  upload_basename_and_workspace_defaults "b" "docs/sub/paper.txt" "f.txt"
    "docs/sub" "paper.txt" (by decide)

end GptrClient
